import Mathlib

/-!
Verification of the driver-core specification of this repository: the cursor
iterator state machine, topology tracking, server selection, connection-pool
management, the command executor retry policy, and the collection handle
validity contract. The corpus ships only the test suite and a thin API header
for this core, so each component is modelled from the specification text (and
the observable contract encoded in the tests), then the specified properties
are proved about the model.
-/

/-! ### Cursor state machine (spec 4.5, 9; test collection.cpp Cursor iteration) -/

/-- A result document, abstracted to its payload. -/
abbrev Doc := Nat

/-- Modelled from the spec: the cursor phases Unstarted, Active, Exhausted of
section 4.5 (the cursor implementation itself is absent from the corpus). -/
inductive CursorPhase
  | unstarted
  | active
  | exhausted
deriving DecidableEq

/-- Modelled from the spec: the Cursor of section 3 (tailable flag, shared
consumption position, exhaustion state). The single mutable position cell of
design note 9 is the served counter; the server-visible document list is
passed explicitly to each operation. -/
structure Cursor where
  tailable : Bool
  served : Nat
  phase : CursorPhase
deriving DecidableEq

/-- A cursor that has not yet fetched anything (Unstarted). -/
def freshCursor (t : Bool) : Cursor :=
  { tailable := t, served := 0, phase := .unstarted }

/-- Modelled from the spec: a poll of the server-side result set — if
unconsumed documents remain the cursor is Active, otherwise Exhausted
(section 4.5, batch refill via getMore abstracted to one poll). -/
def poll (server : List Doc) (c : Cursor) : Cursor :=
  if c.served < server.length then { c with phase := .active }
  else { c with phase := .exhausted }

/-- Modelled from the spec: begin — Unstarted becomes Active on first access;
on an Active cursor it returns the shared state unchanged; on an Exhausted
tailable cursor it is the explicit re-poll that may revive the cursor; for a
non-tailable cursor Exhausted is terminal (section 4.5). -/
def cbegin (server : List Doc) (c : Cursor) : Cursor :=
  match c.phase with
  | .unstarted => poll server c
  | .active => c
  | .exhausted => if c.tailable then poll server c else c

/-- The document at the shared position, when the cursor is Active. -/
def currentDoc (server : List Doc) (c : Cursor) : Option Doc :=
  match c.phase with
  | .active => server.get? c.served
  | _ => none

/-- Modelled from the spec: consuming one document advances the shared
position; when no further document is available the cursor transitions to
Exhausted (section 4.5). Advancing a non-Active cursor is a no-op. -/
def advance (server : List Doc) (c : Cursor) : Cursor :=
  match c.phase with
  | .active =>
    if c.served + 1 < server.length then { c with served := c.served + 1 }
    else { c with served := c.served + 1, phase := .exhausted }
  | _ => c

/-- Modelled from the spec: an iterator handle is a lightweight reference to
the cursor's single shared position cell, or the distinguished end sentinel
(design note 9). The id field is object identity and is never consulted by
equality. -/
structure Handle where
  id : Nat
  isEnd : Bool
deriving DecidableEq

/-- The logical position a handle observes under cursor state c: the end
sentinel and any handle on a non-Active cursor observe the exhausted
position, a live handle on an Active cursor observes the shared served
counter. -/
def observedPos (c : Cursor) (h : Handle) : Option Nat :=
  if h.isEnd then none
  else match c.phase with
    | .active => some c.served
    | _ => none

/-- Modelled from the spec: equality between two handles is defined purely by
logical position, not object identity (section 4.5 invariant). -/
def handleEq (c : Cursor) (h1 h2 : Handle) : Bool :=
  decide (observedPos c h1 = observedPos c h2)

/-- Dereferencing a handle yields the document at the shared position. -/
def handleDeref (server : List Doc) (c : Cursor) (h : Handle) : Option Doc :=
  if h.isEnd then none else currentDoc server c

/-- One pass of the range-for loop: repeatedly yield the current document and
advance, until the cursor reports no current document. Fuel bounds the
recursion; drain supplies enough fuel for the whole server-visible set. -/
def drainAux (server : List Doc) : Nat → Cursor → List Doc × Cursor
  | 0, c => ([], c)
  | fuel + 1, c =>
    match currentDoc server c with
    | none => ([], c)
    | some d =>
      let p := drainAux server fuel (advance server c)
      (d :: p.1, p.2)

/-- A full iteration pass: call begin, then consume documents until the
cursor is exhausted, returning the documents yielded and the final state. -/
def drain (server : List Doc) (c : Cursor) : List Doc × Cursor :=
  drainAux server (server.length - c.served) (cbegin server c)

theorem drainAux_exhausted (server : List Doc) (fuel : Nat) (t : Bool) (s : Nat) :
    drainAux server fuel { tailable := t, served := s, phase := .exhausted } =
      ([], { tailable := t, served := s, phase := .exhausted }) := by
  cases fuel <;> simp [drainAux, currentDoc]

theorem drainAux_spec (server : List Doc) :
    ∀ fuel s t, s < server.length → server.length - s ≤ fuel →
    drainAux server fuel { tailable := t, served := s, phase := .active } =
      (server.drop s, { tailable := t, served := server.length, phase := .exhausted }) := by
  intro fuel
  induction fuel with
  | zero =>
    intro s t hs hf
    omega
  | succ n ih =>
    intro s t hs hf
    have hget : server.get? s = some (server.get ⟨s, hs⟩) := List.get?_eq_get hs
    by_cases hlt : s + 1 < server.length
    · have hdrop : server.drop s = server.get ⟨s, hs⟩ :: server.drop (s + 1) :=
        List.drop_eq_get_cons hs
      simp only [drainAux, currentDoc, hget, advance, if_pos hlt]
      rw [ih (s + 1) t hlt (by omega), hdrop]
    · have hlen : s + 1 = server.length := by omega
      have hdrop : server.drop s = [server.get ⟨s, hs⟩] := by
        rw [List.drop_eq_get_cons hs, hlen, List.drop_length]
      simp only [drainAux, currentDoc, hget, advance, if_neg hlt]
      rw [drainAux_exhausted, hdrop, hlen]

theorem drain_fresh (server : List Doc) (t : Bool) :
    drain server (freshCursor t) =
      (server, { tailable := t, served := server.length, phase := .exhausted }) := by
  cases hsrv : server with
  | nil => simp [drain, freshCursor, cbegin, poll, drainAux_exhausted]
  | cons d rest =>
    have hpos : 0 < server.length := by rw [hsrv]; simp
    rw [← hsrv]
    have hbegin : cbegin server (freshCursor t) =
        { tailable := t, served := 0, phase := .active } := by
      simp [cbegin, freshCursor, poll, hpos]
    rw [drain, hbegin, freshCursor]
    simpa using drainAux_spec server (server.length - 0) 0 t hpos (by omega)

theorem handleEq_live (c : Cursor) (i j : Nat) :
    handleEq c { id := i, isEnd := false } { id := j, isEnd := false } = true := by
  simp [handleEq, observedPos]

theorem cbegin_active (server : List Doc) (c : Cursor) (hc : c.phase = .active) :
    cbegin server c = c := by
  obtain ⟨t, s, ph⟩ := c
  simp only at hc
  subst hc
  rfl

theorem cbegin_advance (server : List Doc) (c : Cursor) (hc : c.phase = .active) :
    cbegin server (advance server c) = advance server c := by
  obtain ⟨t, s, ph⟩ := c
  simp only at hc
  subst hc
  by_cases hlt : s + 1 < server.length
  · simp [advance, hlt, cbegin]
  · cases t <;> simp [advance, hlt, cbegin, poll]

theorem append_length_lt (docs newDocs : List Doc) (hM : newDocs ≠ []) :
    docs.length < (docs ++ newDocs).length := by
  cases newDocs with
  | nil => exact absurd rfl hM
  | cons a l =>
    rw [List.length_append]
    simp

theorem cbegin_revive (docs newDocs : List Doc) (hM : newDocs ≠ []) :
    cbegin (docs ++ newDocs) { tailable := true, served := docs.length, phase := .exhausted } =
      { tailable := true, served := docs.length, phase := .active } := by
  simp [cbegin, poll, append_length_lt docs newDocs hM, hM]

theorem drain_revive (docs newDocs : List Doc) (hM : newDocs ≠ []) :
    drain (docs ++ newDocs) { tailable := true, served := docs.length, phase := .exhausted } =
      (newDocs,
       { tailable := true, served := (docs ++ newDocs).length, phase := .exhausted }) := by
  rw [drain, cbegin_revive docs newDocs hM]
  rw [drainAux_spec (docs ++ newDocs) _ docs.length true
    (append_length_lt docs newDocs hM) (by simp)]
  rw [List.drop_left]

/-- C1: for every live cursor, two iterator handles obtained from begin at the
same unconsumed position compare equal — equality is defined by logical
position, never by the handle object identity — a live handle differs from
the end sentinel, both handles dereference to the same document, begin
returns the shared state unchanged, and advancing either handle advances the
single shared position, so that a previously obtained handle still compares
equal to a fresh begin. -/
theorem cursor_lockstep (server : List Doc) (c : Cursor) (i j k : Nat)
    (hc : c.phase = .active) :
    handleEq c { id := i, isEnd := false } { id := j, isEnd := false } = true ∧
    handleEq c { id := i, isEnd := false } { id := k, isEnd := true } = false ∧
    handleDeref server c { id := i, isEnd := false } =
      handleDeref server c { id := j, isEnd := false } ∧
    cbegin server c = c ∧
    cbegin server (advance server c) = advance server c ∧
    handleEq (advance server c) { id := i, isEnd := false }
      { id := j, isEnd := false } = true := by
  refine ⟨handleEq_live c i j, ?_, rfl, cbegin_active server c hc,
    cbegin_advance server c hc, handleEq_live _ i j⟩
  simp [handleEq, observedPos, hc]

theorem cursor_lockstep_witness :
    ({ tailable := false, served := 0, phase := .active } : Cursor).phase =
        CursorPhase.active ∧
    handleEq { tailable := false, served := 0, phase := .active }
      { id := 5, isEnd := false } { id := 9, isEnd := false } = true := by
  refine ⟨rfl, ?_⟩
  exact (cursor_lockstep [1, 2] { tailable := false, served := 0, phase := .active }
    5 9 3 rfl).1

/-- C2: for every tailable cursor exhausted after full consumption, inserting
M new documents server-side and calling begin again revives the iterator to
Active, a further full pass yields exactly the M new documents in insertion
order, and afterwards the pre-existing iterator, begin and end all agree the
cursor is exhausted again. -/
theorem tailable_revival (docs newDocs : List Doc) (hM : newDocs ≠ []) (i k : Nat) :
    (drain docs (freshCursor true)).2.phase = .exhausted ∧
    (cbegin (docs ++ newDocs) (drain docs (freshCursor true)).2).phase = .active ∧
    (drain (docs ++ newDocs) (drain docs (freshCursor true)).2).1 = newDocs ∧
    (drain (docs ++ newDocs) (drain docs (freshCursor true)).2).2.phase = .exhausted ∧
    handleEq (drain (docs ++ newDocs) (drain docs (freshCursor true)).2).2
      { id := i, isEnd := false } { id := k, isEnd := true } = true ∧
    cbegin (docs ++ newDocs)
        (drain (docs ++ newDocs) (drain docs (freshCursor true)).2).2 =
      (drain (docs ++ newDocs) (drain docs (freshCursor true)).2).2 := by
  have h2 : (drain docs (freshCursor true)).2 =
      { tailable := true, served := docs.length, phase := .exhausted } := by
    rw [drain_fresh]
  rw [h2, drain_revive docs newDocs hM, cbegin_revive docs newDocs hM]
  refine ⟨rfl, rfl, rfl, rfl, ?_, ?_⟩
  · simp [handleEq, observedPos]
  · simp [cbegin, poll]

theorem tailable_revival_witness :
    ([3, 4] : List Doc) ≠ [] ∧
    (drain ([1, 2] ++ [3, 4]) (drain [1, 2] (freshCursor true)).2).1 = [3, 4] :=
  ⟨by decide, (tailable_revival [1, 2] [3, 4] (by decide) 0 1).2.2.1⟩

/-- C3: for every non-tailable cursor over N server-visible documents, a full
iteration pass yields exactly the N documents and leaves the cursor
Exhausted with begin equal to end; a second pass over the same exhausted,
non-revived cursor yields zero documents and changes nothing. -/
theorem non_tailable_complete (docs : List Doc) (i k : Nat) :
    (drain docs (freshCursor false)).1 = docs ∧
    (drain docs (freshCursor false)).1.length = docs.length ∧
    (drain docs (freshCursor false)).2.phase = .exhausted ∧
    handleEq (drain docs (freshCursor false)).2 { id := i, isEnd := false }
      { id := k, isEnd := true } = true ∧
    (drain docs (drain docs (freshCursor false)).2).1 = [] ∧
    (drain docs (drain docs (freshCursor false)).2).2 =
      (drain docs (freshCursor false)).2 := by
  have h2 : (drain docs (freshCursor false)).2 =
      { tailable := false, served := docs.length, phase := .exhausted } := by
    rw [drain_fresh]
  have hsecond :
      drain docs { tailable := false, served := docs.length, phase := .exhausted } =
      ([], { tailable := false, served := docs.length, phase := .exhausted }) := by
    rw [drain]
    exact drainAux_exhausted docs _ false docs.length
  have h1 : (drain docs (freshCursor false)).1 = docs := by rw [drain_fresh]
  rw [h2, hsecond, h1]
  exact ⟨rfl, rfl, rfl, by simp [handleEq, observedPos], rfl, rfl⟩

theorem non_tailable_complete_witness :
    (drain [1, 2, 3] (freshCursor false)).1 = [1, 2, 3] ∧
    (drain [1, 2, 3] (drain [1, 2, 3] (freshCursor false)).2).1 = [] :=
  ⟨(non_tailable_complete [1, 2, 3] 0 1).1,
   (non_tailable_complete [1, 2, 3] 0 1).2.2.2.2.1⟩

/-- C4: an exhausted tailable cursor never becomes Active automatically: with
new documents available server-side but no explicit re-poll, an existing
handle still compares equal to end, dereferences to nothing, and advancing
it is a no-op; only the explicit begin makes the handle non-exhausted. -/
theorem no_automatic_revival (docs newDocs : List Doc) (hM : newDocs ≠ []) (i k : Nat) :
    handleEq { tailable := true, served := docs.length, phase := .exhausted }
      { id := i, isEnd := false } { id := k, isEnd := true } = true ∧
    handleDeref (docs ++ newDocs)
      { tailable := true, served := docs.length, phase := .exhausted }
      { id := i, isEnd := false } = none ∧
    advance (docs ++ newDocs)
      { tailable := true, served := docs.length, phase := .exhausted } =
      { tailable := true, served := docs.length, phase := .exhausted } ∧
    (cbegin (docs ++ newDocs)
      { tailable := true, served := docs.length, phase := .exhausted }).phase = .active ∧
    handleEq (cbegin (docs ++ newDocs)
        { tailable := true, served := docs.length, phase := .exhausted })
      { id := i, isEnd := false } { id := k, isEnd := true } = false := by
  rw [cbegin_revive docs newDocs hM]
  exact ⟨by simp [handleEq, observedPos], rfl, rfl, rfl,
    by simp [handleEq, observedPos]⟩

theorem no_automatic_revival_witness :
    ([2, 3] : List Doc) ≠ [] ∧
    handleEq { tailable := true, served := ([1] : List Doc).length, phase := .exhausted }
      { id := 0, isEnd := false } { id := 1, isEnd := true } = true :=
  ⟨by decide, (no_automatic_revival [1] [2, 3] (by decide) 0 1).1⟩

/-! ### Topology tracking (spec 3, 4.1, 8) -/

abbrev Address := Nat

abbrev SetName := Nat

/-- Modelled from the spec: the server roles of the ServerDescription data
model (section 3); the Topology Monitor implementation is absent from the
corpus. -/
inductive ServerRole
  | unknownRole
  | standalone
  | rsPrimary
  | rsSecondary
  | arbiter
  | mongos
deriving DecidableEq

/-- Modelled from the spec: ServerDescription (section 3) — address, role,
set name, election id, round-trip-time estimate, replication-lag estimate
and tags; an immutable snapshot once published. -/
structure ServerDescription where
  address : Address
  role : ServerRole
  setName : Option SetName
  electionId : Option Nat
  rtt : Nat
  lag : Nat
  tags : List (Nat × Nat)
deriving DecidableEq

/-- Modelled from the spec: the topology types of section 3. -/
inductive TopologyType
  | unknownTop
  | single
  | sharded
  | rsNoPrimary
  | rsWithPrimary
deriving DecidableEq

/-- Modelled from the spec: TopologyDescription (section 3) — topology type,
server descriptions keyed by unique address, set name and the highest
election id seen; replaced atomically as a whole value on each update. -/
structure TopologyDescription where
  ttype : TopologyType
  servers : List ServerDescription
  setName : Option SetName
  maxElectionId : Option Nat
deriving DecidableEq

def isPrimary (s : ServerDescription) : Bool := decide (s.role = .rsPrimary)

def hasAddr (a : Address) (s : ServerDescription) : Bool := decide (s.address = a)

/-- A server marked unusable keeps its address but loses its role. -/
def markUnknown (sd : ServerDescription) : ServerDescription :=
  { sd with role := .unknownRole }

/-- Replace the description stored for an address, or add it when new. -/
def setServer (l : List ServerDescription) (sd : ServerDescription) :
    List ServerDescription :=
  if l.any (hasAddr sd.address) then
    l.map fun s => if hasAddr sd.address s then sd else s
  else l ++ [sd]

/-- When a new primary is accepted, every other server still marked primary
is demoted to Unknown, preserving the single-primary invariant. -/
def demoteOtherPrimaries (l : List ServerDescription) (a : Address) :
    List ServerDescription :=
  l.map fun s => if hasAddr a s then s else if isPrimary s then markUnknown s else s

/-- Modelled from the spec: a report naming a different set name than
previously recorded is rejected (section 4.1 tie rules). -/
def nameConflict (t : TopologyDescription) (sd : ServerDescription) : Bool :=
  match t.setName, sd.setName with
  | some a, some b => decide (a ≠ b)
  | _, _ => false

/-- Modelled from the spec: a primary report is stale when it bears an
election id lower than the highest already recorded (section 4.1 tie
rules). -/
def staleElection (recorded reported : Option Nat) : Bool :=
  match recorded, reported with
  | some m, some e => decide (e < m)
  | _, _ => false

def maxElection (recorded reported : Option Nat) : Option Nat :=
  match recorded, reported with
  | some m, some e => some (Nat.max m e)
  | some m, none => some m
  | none, x => x

/-- Modelled from the spec: publish (section 4.1) merges one
ServerDescription update into the current TopologyDescription following the
monitoring state machine — Unknown moves to Single, Sharded or
ReplicaSetNoPrimary on the first matching response; an accepted primary
report moves the topology to ReplicaSetWithPrimary and demotes any other
primary; a stale primary report is ignored; a report with a conflicting set
name is rejected and that server marked unusable. -/
def publish (t : TopologyDescription) (sd : ServerDescription) :
    TopologyDescription :=
  match sd.role with
  | .rsPrimary =>
    if nameConflict t sd then
      { t with servers := setServer t.servers (markUnknown sd) }
    else if staleElection t.maxElectionId sd.electionId then t
    else
      { ttype := .rsWithPrimary,
        servers := setServer (demoteOtherPrimaries t.servers sd.address) sd,
        setName := t.setName.orElse fun _ => sd.setName,
        maxElectionId := maxElection t.maxElectionId sd.electionId }
  | .rsSecondary =>
    if nameConflict t sd then
      { t with servers := setServer t.servers (markUnknown sd) }
    else
      { t with
        ttype := if t.ttype = .unknownTop then .rsNoPrimary else t.ttype,
        setName := t.setName.orElse fun _ => sd.setName,
        servers := setServer t.servers sd }
  | .arbiter =>
    if nameConflict t sd then
      { t with servers := setServer t.servers (markUnknown sd) }
    else
      { t with
        ttype := if t.ttype = .unknownTop then .rsNoPrimary else t.ttype,
        setName := t.setName.orElse fun _ => sd.setName,
        servers := setServer t.servers sd }
  | .standalone =>
    { t with
      ttype := if t.ttype = .unknownTop then .single else t.ttype,
      servers := setServer t.servers sd }
  | .mongos =>
    { t with
      ttype := if t.ttype = .unknownTop then .sharded else t.ttype,
      servers := setServer t.servers sd }
  | .unknownRole => { t with servers := setServer t.servers sd }

def primCount (l : List ServerDescription) : Nat := l.countP isPrimary

def aCount (l : List ServerDescription) (a : Address) : Nat :=
  l.countP (hasAddr a)

/-- The topology invariant: addresses are unique and at most one server is
marked primary. -/
def topoInv (t : TopologyDescription) : Prop :=
  (∀ a, aCount t.servers a ≤ 1) ∧ primCount t.servers ≤ 1

def initialTopology : TopologyDescription :=
  { ttype := .unknownTop, servers := [], setName := none, maxElectionId := none }

theorem hasAddr_replace (sd : ServerDescription) (a : Address) (s : ServerDescription) :
    hasAddr a (if hasAddr sd.address s then sd else s) = hasAddr a s := by
  by_cases h : hasAddr sd.address s = true
  · have hs : s.address = sd.address := of_decide_eq_true h
    simp [h, hasAddr, hs]
  · simp [h]

theorem aCount_setServer (l : List ServerDescription) (sd : ServerDescription)
    (hinv : ∀ b, aCount l b ≤ 1) (a : Address) : aCount (setServer l sd) a ≤ 1 := by
  unfold setServer
  by_cases hany : l.any (hasAddr sd.address) = true
  · rw [if_pos hany]
    have hmap : aCount (l.map fun s => if hasAddr sd.address s then sd else s) a
        = aCount l a := by
      unfold aCount
      rw [List.countP_map]
      exact List.countP_congr fun x _ => by
        simp only [Function.comp_apply, hasAddr_replace]
    rw [hmap]
    exact hinv a
  · rw [if_neg hany]
    unfold aCount
    rw [List.countP_append]
    by_cases ha : a = sd.address
    · subst ha
      have hzero : l.countP (hasAddr sd.address) = 0 := by
        rw [List.countP_eq_zero]
        intro x hx hpx
        rw [List.any_eq_true] at hany
        exact hany ⟨x, hx, hpx⟩
      have hone : List.countP (hasAddr sd.address) [sd] = 1 := by
        simp [List.countP_cons, hasAddr]
      omega
    · have hzero : List.countP (hasAddr a) [sd] = 0 := by
        have : hasAddr a sd = false := by
          simp [hasAddr]
          exact fun hc => ha hc.symm
        simp [List.countP_cons, this]
      have := hinv a
      unfold aCount at this
      omega

theorem hasAddr_demote (a0 a : Address) (s : ServerDescription) :
    hasAddr a (if hasAddr a0 s then s else if isPrimary s then markUnknown s else s) =
      hasAddr a s := by
  by_cases h1 : hasAddr a0 s = true
  · rw [if_pos h1]
  · rw [if_neg h1]
    by_cases h2 : isPrimary s = true
    · rw [if_pos h2]
      simp [hasAddr, markUnknown]
    · rw [if_neg h2]

theorem aCount_demote (l : List ServerDescription) (a0 a : Address) :
    aCount (demoteOtherPrimaries l a0) a = aCount l a := by
  unfold aCount demoteOtherPrimaries
  rw [List.countP_map]
  exact List.countP_congr fun x _ => by
    simp only [Function.comp_apply, hasAddr_demote]

theorem demote_primary_addr (l : List ServerDescription) (a : Address) :
    ∀ s ∈ demoteOtherPrimaries l a, isPrimary s = true → hasAddr a s = true := by
  intro s hs hp
  unfold demoteOtherPrimaries at hs
  obtain ⟨x, hx, hfx⟩ := List.mem_map.mp hs
  by_cases h1 : hasAddr a x = true
  · rw [if_pos h1] at hfx
    rw [← hfx]
    exact h1
  · rw [if_neg h1] at hfx
    by_cases h2 : isPrimary x = true
    · rw [if_pos h2] at hfx
      rw [← hfx] at hp
      simp [isPrimary, markUnknown] at hp
    · rw [if_neg h2] at hfx
      rw [← hfx] at hp
      exact absurd hp h2

theorem primCount_setServer_le (l : List ServerDescription) (sd : ServerDescription)
    (hsd : isPrimary sd = false) : primCount (setServer l sd) ≤ primCount l := by
  unfold setServer
  by_cases hany : l.any (hasAddr sd.address) = true
  · rw [if_pos hany]
    unfold primCount
    rw [List.countP_map]
    apply List.countP_mono_left
    intro x _ hpx
    by_cases h1 : hasAddr sd.address x = true
    · simp [Function.comp_apply, if_pos h1, hsd] at hpx
    · simpa only [Function.comp_apply, if_neg h1] using hpx
  · rw [if_neg hany]
    unfold primCount
    rw [List.countP_append]
    have hzero : List.countP isPrimary [sd] = 0 := by
      simp [List.countP_cons, hsd]
    omega

theorem primCount_setServer_primary (l : List ServerDescription)
    (sd : ServerDescription)
    (hpt : ∀ s ∈ l, isPrimary s = true → hasAddr sd.address s = true)
    (haone : aCount l sd.address ≤ 1) :
    primCount (setServer l sd) ≤ 1 := by
  unfold setServer
  by_cases hany : l.any (hasAddr sd.address) = true
  · rw [if_pos hany]
    unfold primCount
    rw [List.countP_map]
    have hle : List.countP (isPrimary ∘ fun s =>
        if hasAddr sd.address s then sd else s) l ≤
        List.countP (hasAddr sd.address) l := by
      apply List.countP_mono_left
      intro x hx hpx
      by_cases h1 : hasAddr sd.address x = true
      · exact h1
      · exact hpt x hx (by simpa only [Function.comp_apply, if_neg h1] using hpx)
    exact le_trans hle haone
  · rw [if_neg hany]
    unfold primCount
    rw [List.countP_append]
    have hzero : List.countP isPrimary l = 0 := by
      rw [List.countP_eq_zero]
      intro x hx hpx
      rw [List.any_eq_true] at hany
      exact hany ⟨x, hx, hpt x hx hpx⟩
    have hle : List.countP isPrimary [sd] ≤ 1 := by
      by_cases h : isPrimary sd = true <;> simp [List.countP_cons, h]
    omega

theorem publish_inv (t : TopologyDescription) (sd : ServerDescription)
    (h : topoInv t) : topoInv (publish t sd) := by
  obtain ⟨ha, hp⟩ := h
  have hnonprim : ∀ x : ServerDescription, isPrimary x = false →
      (∀ b, aCount (setServer t.servers x) b ≤ 1) ∧
        primCount (setServer t.servers x) ≤ 1 := fun x hx =>
    ⟨fun b => aCount_setServer t.servers x ha b,
     le_trans (primCount_setServer_le t.servers x hx) hp⟩
  have hmark : isPrimary (markUnknown sd) = false := by
    simp [isPrimary, markUnknown]
  cases hrole : sd.role with
  | rsPrimary =>
    by_cases hnc : nameConflict t sd = true
    · have := hnonprim (markUnknown sd) hmark
      simp only [publish, hrole, if_pos hnc]
      exact this
    · by_cases hst : staleElection t.maxElectionId sd.electionId = true
      · simp only [publish, hrole, if_neg hnc, if_pos hst]
        exact ⟨ha, hp⟩
      · simp only [publish, hrole, if_neg hnc, if_neg hst]
        constructor
        · intro b
          exact aCount_setServer (demoteOtherPrimaries t.servers sd.address) sd
            (fun b2 => by rw [aCount_demote]; exact ha b2) b
        · exact primCount_setServer_primary (demoteOtherPrimaries t.servers sd.address)
            sd (demote_primary_addr t.servers sd.address)
            (by rw [aCount_demote]; exact ha sd.address)
  | rsSecondary =>
    have hsp : isPrimary sd = false := by simp [isPrimary, hrole]
    by_cases hnc : nameConflict t sd = true
    · simp only [publish, hrole, if_pos hnc]
      exact hnonprim (markUnknown sd) hmark
    · simp only [publish, hrole, if_neg hnc]
      exact hnonprim sd hsp
  | arbiter =>
    have hsp : isPrimary sd = false := by simp [isPrimary, hrole]
    by_cases hnc : nameConflict t sd = true
    · simp only [publish, hrole, if_pos hnc]
      exact hnonprim (markUnknown sd) hmark
    · simp only [publish, hrole, if_neg hnc]
      exact hnonprim sd hsp
  | standalone =>
    have hsp : isPrimary sd = false := by simp [isPrimary, hrole]
    simp only [publish, hrole]
    exact hnonprim sd hsp
  | mongos =>
    have hsp : isPrimary sd = false := by simp [isPrimary, hrole]
    simp only [publish, hrole]
    exact hnonprim sd hsp
  | unknownRole =>
    have hsp : isPrimary sd = false := by simp [isPrimary, hrole]
    simp only [publish, hrole]
    exact hnonprim sd hsp

theorem foldl_publish_inv (updates : List ServerDescription) :
    ∀ t, topoInv t → topoInv (updates.foldl publish t) := by
  induction updates with
  | nil => exact fun t h => h
  | cons u rest ih => exact fun t h => ih (publish t u) (publish_inv t u h)

theorem initialTopology_inv : topoInv initialTopology := by
  constructor
  · intro a
    simp [aCount, initialTopology]
  · simp [primCount, initialTopology]

/-- C5: for every sequence of ServerDescription updates merged by publish
starting from the initial topology, the published TopologyDescription never
contains two ServerDescriptions simultaneously marked primary (hence never
two primaries of the same set name); in particular when the topology type is
replica-set-with-primary there is at most one primary. -/
theorem topology_single_primary (updates : List ServerDescription) :
    primCount (updates.foldl publish initialTopology).servers ≤ 1 :=
  (foldl_publish_inv updates initialTopology initialTopology_inv).2

/-- A convenient primary report literal. -/
def primaryUpd (a : Address) (eid : Nat) : ServerDescription :=
  { address := a, role := .rsPrimary, setName := some 0, electionId := some eid,
    rtt := 0, lag := 0, tags := [] }

theorem topology_single_primary_witness :
    primCount ((List.foldl publish initialTopology
      [primaryUpd 1 1, primaryUpd 2 2]).servers) ≤ 1 :=
  topology_single_primary [primaryUpd 1 1, primaryUpd 2 2]

/-- C6: applying a primary ServerDescription update whose election id is
lower than the highest election id previously observed for that set leaves
the TopologyDescription unchanged — publish of a stale primary report is the
identity on the topology state. -/
theorem stale_primary_noop (t : TopologyDescription) (sd : ServerDescription)
    (m e : Nat) (hrole : sd.role = .rsPrimary)
    (hname : nameConflict t sd = false)
    (hm : t.maxElectionId = some m) (he : sd.electionId = some e)
    (hlt : e < m) :
    publish t sd = t := by
  have hstale : staleElection t.maxElectionId sd.electionId = true := by
    rw [hm, he]
    simp [staleElection, hlt]
  have hnc : ¬nameConflict t sd = true := by simp [hname]
  simp only [publish, hrole, if_neg hnc, if_pos hstale]

theorem stale_primary_noop_witness :
    publish
      { ttype := .rsWithPrimary, servers := [primaryUpd 1 5], setName := some 0,
        maxElectionId := some 5 }
      (primaryUpd 2 3) =
      { ttype := .rsWithPrimary, servers := [primaryUpd 1 5], setName := some 0,
        maxElectionId := some 5 } :=
  stale_primary_noop _ _ 5 3 rfl (by decide) rfl rfl (by decide)

/-! ### Server selection (spec 4.2, 8) -/

/-- Modelled from the spec: the read preference modes of section 3. -/
inductive ReadMode
  | primaryMode
  | primaryPreferred
  | secondaryMode
  | secondaryPreferred
  | nearest
deriving DecidableEq

/-- Modelled from the spec: the operation kinds distinguished by role
filtering (section 4.2). -/
inductive OpKind
  | readOp
  | writeOp
deriving DecidableEq

/-- Modelled from the spec: ReadPreference (section 3) — mode, ordered tag
set alternatives and max staleness bound; immutable, attached per
operation. -/
structure ReadPreference where
  mode : ReadMode
  tagSets : List (List (Nat × Nat))
  maxStaleness : Option Nat
deriving DecidableEq

def isSecondary (s : ServerDescription) : Bool := decide (s.role = .rsSecondary)

/-- Modelled from the spec: role filtering (section 4.2) — mode primary
admits only the primary; write operations always require the primary; mode
secondary admits only secondaries; the preferred modes fall back to the
other role class when the preferred class is empty; nearest admits both. -/
def candidates (t : TopologyDescription) (rp : ReadPreference) (op : OpKind) :
    List ServerDescription :=
  match op with
  | .writeOp => t.servers.filter isPrimary
  | .readOp =>
    match rp.mode with
    | .primaryMode => t.servers.filter isPrimary
    | .secondaryMode => t.servers.filter isSecondary
    | .primaryPreferred =>
      let p := t.servers.filter isPrimary
      if p.isEmpty then t.servers.filter isSecondary else p
    | .secondaryPreferred =>
      let sec := t.servers.filter isSecondary
      if sec.isEmpty then t.servers.filter isPrimary else sec
    | .nearest => t.servers.filter fun s => isPrimary s || isSecondary s

/-- A server matches a tag set when it carries every tag of the set. -/
def matchesTagSet (ts : List (Nat × Nat)) (s : ServerDescription) : Bool :=
  ts.all fun kv => s.tags.contains kv

/-- The first tag set matching at least one eligible server wins. -/
def firstTagMatch : List (List (Nat × Nat)) → List ServerDescription →
    List ServerDescription
  | [], _ => []
  | ts :: rest, l =>
    let m := l.filter (matchesTagSet ts)
    if m.isEmpty then firstTagMatch rest l else m

/-- Modelled from the spec: tag-set filtering (section 4.2) — tag sets apply
in priority order and an empty tag-set sequence matches everything. -/
def tagFilter (tagSets : List (List (Nat × Nat))) (l : List ServerDescription) :
    List ServerDescription :=
  match tagSets with
  | [] => l
  | _ => firstTagMatch tagSets l

/-- Modelled from the spec: staleness filtering (section 4.2) — candidates
whose replication-lag estimate exceeds the max-staleness bound are
discarded. -/
def stalenessFilter (bound : Option Nat) (l : List ServerDescription) :
    List ServerDescription :=
  match bound with
  | none => l
  | some b => l.filter fun s => decide (s.lag ≤ b)

def minRtt (l : List ServerDescription) : Nat :=
  match l with
  | [] => 0
  | s :: rest => rest.foldl (fun m x => Nat.min m x.rtt) s.rtt

/-- Modelled from the spec: latency-window tie-break (section 4.2) — keep
only candidates within a fixed margin of the minimum observed round-trip
time. -/
def latencyWindow (margin : Nat) (l : List ServerDescription) :
    List ServerDescription :=
  l.filter fun s => decide (s.rtt ≤ minRtt l + margin)

/-- Modelled from the spec: select (section 4.2) — filter by role, tag sets
and staleness, apply the latency window, then choose uniformly at random
among the remainder; the random draw is an explicit parameter. -/
def select (t : TopologyDescription) (rp : ReadPreference) (op : OpKind)
    (margin draw : Nat) : Option ServerDescription :=
  let c4 := latencyWindow margin
    (stalenessFilter rp.maxStaleness
      (tagFilter rp.tagSets (candidates t rp op)))
  c4.get? (draw % c4.length)

theorem mem_firstTagMatch (s : ServerDescription) :
    ∀ tagSets l, s ∈ firstTagMatch tagSets l → s ∈ l := by
  intro tagSets
  induction tagSets with
  | nil =>
    intro l hs
    simp [firstTagMatch] at hs
  | cons ts rest ih =>
    intro l hs
    simp only [firstTagMatch] at hs
    by_cases hemp : (l.filter (matchesTagSet ts)).isEmpty = true
    · rw [if_pos hemp] at hs
      exact ih l hs
    · rw [if_neg hemp] at hs
      exact (List.mem_filter.mp hs).1

theorem mem_tagFilter (s : ServerDescription) (tagSets : List (List (Nat × Nat)))
    (l : List ServerDescription) (hs : s ∈ tagFilter tagSets l) : s ∈ l := by
  cases tagSets with
  | nil => exact hs
  | cons ts rest => exact mem_firstTagMatch s (ts :: rest) l hs

theorem mem_stalenessFilter (s : ServerDescription) (bound : Option Nat)
    (l : List ServerDescription) (hs : s ∈ stalenessFilter bound l) : s ∈ l := by
  cases bound with
  | none => exact hs
  | some b => exact (List.mem_filter.mp hs).1

theorem mem_latencyWindow (s : ServerDescription) (margin : Nat)
    (l : List ServerDescription) (hs : s ∈ latencyWindow margin l) : s ∈ l :=
  (List.mem_filter.mp hs).1

/-- C7: for every topology, selection with read preference mode secondary
for a read operation never returns the primary: any returned
ServerDescription has the secondary role, regardless of the random
latency-window tie-break draw; in particular it differs from every server
marked primary in the topology. -/
theorem secondary_never_primary (t : TopologyDescription) (rp : ReadPreference)
    (margin draw : Nat) (s : ServerDescription)
    (hmode : rp.mode = .secondaryMode)
    (hsel : select t rp .readOp margin draw = some s) :
    s.role = .rsSecondary ∧ s.role ≠ .rsPrimary ∧
    ∀ p ∈ t.servers, p.role = .rsPrimary → s ≠ p := by
  have hmem4 := List.get?_mem hsel
  have hmem1 : s ∈ candidates t rp .readOp :=
    mem_tagFilter s rp.tagSets _
      (mem_stalenessFilter s rp.maxStaleness _
        (mem_latencyWindow s margin _ hmem4))
  rw [show candidates t rp .readOp = t.servers.filter isSecondary by
    simp [candidates, hmode]] at hmem1
  have hsec : isSecondary s = true := (List.mem_filter.mp hmem1).2
  have hrole : s.role = .rsSecondary := of_decide_eq_true hsec
  refine ⟨hrole, ?_, ?_⟩
  · rw [hrole]
    intro hcontra
    exact ServerRole.noConfusion hcontra
  · intro p _ hp hsp
    rw [hsp, hp] at hrole
    exact ServerRole.noConfusion hrole

def demoPrimary : ServerDescription :=
  { address := 1, role := .rsPrimary, setName := some 0, electionId := some 1,
    rtt := 5, lag := 0, tags := [] }

def demoSecondaryB : ServerDescription :=
  { address := 2, role := .rsSecondary, setName := some 0, electionId := none,
    rtt := 8, lag := 0, tags := [] }

def demoSecondaryC : ServerDescription :=
  { address := 3, role := .rsSecondary, setName := some 0, electionId := none,
    rtt := 40, lag := 0, tags := [] }

def demoTopology : TopologyDescription :=
  { ttype := .rsWithPrimary,
    servers := [demoPrimary, demoSecondaryB, demoSecondaryC],
    setName := some 0, maxElectionId := some 1 }

def demoSecondaryPref : ReadPreference :=
  { mode := .secondaryMode, tagSets := [], maxStaleness := none }

theorem secondary_never_primary_witness :
    demoSecondaryPref.mode = ReadMode.secondaryMode ∧
    select demoTopology demoSecondaryPref .readOp 15 0 = some demoSecondaryB ∧
    demoSecondaryB.role = ServerRole.rsSecondary :=
  ⟨rfl, by decide,
   (secondary_never_primary demoTopology demoSecondaryPref 15 0 demoSecondaryB
     rfl (by decide)).1⟩

/-! ### Connection pool (spec 4.3, 7, 8) -/

/-- Modelled from the spec: a pooled Connection — generation stamp and
health flag (sections 3, 4.3); the type has no null value. -/
structure Connection where
  generation : Nat
  healthy : Bool
deriving DecidableEq

/-- Modelled from the spec: a per-server ConnectionPool (section 3) —
bounded count of live connections, idle set, FIFO wait queue of caller ids
and a generation counter. -/
structure Pool where
  maxSize : Nat
  liveCount : Nat
  idle : List Connection
  waitQueue : List Nat
  generation : Nat
deriving DecidableEq

inductive AcquireResult
  | conn (c : Connection)
  | blocked
deriving DecidableEq

/-- The first idle connection usable at the current generation. -/
def findIdle (gen : Nat) (idle : List Connection) : Option Connection :=
  idle.find? fun c => decide (c.generation = gen) && c.healthy

/-- Modelled from the spec: acquire (section 4.3) — hand out a matching idle
connection, else open a new one when under the configured maximum, else
enqueue the caller on the FIFO wait queue (the blocking path). -/
def acquire (p : Pool) (caller : Nat) : AcquireResult × Pool :=
  match findIdle p.generation p.idle with
  | some c => (.conn c, { p with idle := p.idle.erase c })
  | none =>
    if p.liveCount < p.maxSize then
      (.conn { generation := p.generation, healthy := true },
       { p with liveCount := p.liveCount + 1 })
    else (.blocked, { p with waitQueue := p.waitQueue ++ [caller] })

inductive PoolEvent
  | release (c : Connection)
  | timeoutExpiry
deriving DecidableEq

inductive PoolError
  | poolTimeout
  | selectionTimeout
deriving DecidableEq

inductive WaitOutcome
  | granted (c : Connection)
  | failed (e : PoolError)
  | stillWaiting
deriving DecidableEq

/-- Modelled from the spec: the blocking wait of acquire (sections 4.3, 5) —
the enqueued caller resolves at the first usable release (a healthy
connection of the current generation) or at the pool-acquisition timeout,
which surfaces PoolTimeoutError; a stale or errored released connection is
closed and the caller keeps waiting. -/
def awaitOutcome (gen : Nat) : List PoolEvent → WaitOutcome
  | [] => .stillWaiting
  | .release c :: rest =>
    if decide (c.generation = gen) && c.healthy then .granted c
    else awaitOutcome gen rest
  | .timeoutExpiry :: _ => .failed .poolTimeout

theorem awaitOutcome_granted_valid (gen : Nat) :
    ∀ events c, awaitOutcome gen events = .granted c →
      c.healthy = true ∧ c.generation = gen := by
  intro events
  induction events with
  | nil =>
    intro c h
    exact absurd h (by simp [awaitOutcome])
  | cons e rest ih =>
    intro c h
    cases e with
    | release c2 =>
      simp only [awaitOutcome] at h
      by_cases hu : (decide (c2.generation = gen) && c2.healthy) = true
      · rw [if_pos hu] at h
        rw [Bool.and_eq_true] at hu
        injection h with hc
        rw [← hc]
        exact ⟨hu.2, of_decide_eq_true hu.1⟩
      · rw [if_neg hu] at h
        exact ih c h
    | timeoutExpiry =>
      simp only [awaitOutcome] at h
      exact absurd h (by simp)

theorem awaitOutcome_not_selection (gen : Nat) :
    ∀ events, awaitOutcome gen events ≠ .failed .selectionTimeout := by
  intro events
  induction events with
  | nil => simp [awaitOutcome]
  | cons e rest ih =>
    cases e with
    | release c2 =>
      simp only [awaitOutcome]
      by_cases hu : (decide (c2.generation = gen) && c2.healthy) = true
      · rw [if_pos hu]
        simp
      · rw [if_neg hu]
        exact ih
    | timeoutExpiry =>
      simp [awaitOutcome]

/-- C8: acquire on a pool already holding its configured maximum of live
connections blocks the caller — it hands out no connection and appends the
caller to the FIFO wait queue; the blocked wait resolves with a valid
(healthy, current-generation) connection when one is released, or with
PoolTimeoutError when the pool-acquisition timeout fires first;
PoolTimeoutError is distinct from SelectionTimeoutError, and a granted
connection is never invalid. -/
theorem pool_acquire_at_max (p : Pool) (caller : Nat)
    (hmax : p.liveCount = p.maxSize) (hidle : p.idle = []) :
    (acquire p caller).1 = .blocked ∧
    (acquire p caller).2.waitQueue = p.waitQueue ++ [caller] ∧
    (∀ rest, awaitOutcome p.generation (.timeoutExpiry :: rest) =
      .failed .poolTimeout) ∧
    (∀ rest, awaitOutcome p.generation
        (.release { generation := p.generation, healthy := true } :: rest) =
      .granted { generation := p.generation, healthy := true }) ∧
    (∀ events c, awaitOutcome p.generation events = .granted c →
      c.healthy = true ∧ c.generation = p.generation) ∧
    (∀ events, awaitOutcome p.generation events ≠ .failed .selectionTimeout) ∧
    PoolError.poolTimeout ≠ PoolError.selectionTimeout := by
  have hfind : findIdle p.generation p.idle = none := by
    rw [hidle]
    rfl
  have hnlt : ¬p.liveCount < p.maxSize := by omega
  refine ⟨?_, ?_, ?_, ?_, awaitOutcome_granted_valid p.generation,
    awaitOutcome_not_selection p.generation, by simp⟩
  · simp [acquire, hfind, hnlt]
  · simp [acquire, hfind, hnlt]
  · intro rest
    simp [awaitOutcome]
  · intro rest
    simp [awaitOutcome]

theorem pool_acquire_at_max_witness :
    (acquire
      { maxSize := 2, liveCount := 2, idle := [], waitQueue := [], generation := 0 }
      7).1 = AcquireResult.blocked ∧
    awaitOutcome 0 [.timeoutExpiry] = .failed .poolTimeout :=
  have h := pool_acquire_at_max
    { maxSize := 2, liveCount := 2, idle := [], waitQueue := [], generation := 0 }
    7 rfl rfl
  ⟨h.1, h.2.2.1 []⟩

/-! ### Command executor retry policy (spec 4.4, 7) -/

/-- Modelled from the spec: the outcome of one command attempt (sections
4.4, 7) — success, a transient network error, a not-primary or
node-is-recovering response, or a well-formed server command error. -/
inductive CmdOutcome
  | success (resp : Nat)
  | netError
  | notPrimaryErr
  | nodeRecovering
  | serverError (code : Nat)
deriving DecidableEq

/-- Modelled from the spec: the failures eligible for one retry — transient
network errors and not-primary / node-is-recovering responses (sections 4.4,
7). -/
def transient : CmdOutcome → Bool
  | .netError => true
  | .notPrimaryErr => true
  | .nodeRecovering => true
  | _ => false

/-- The executor trace: attempts performed, the server selected for each
attempt in order, and the outcome surfaced to the caller. -/
structure ExecTrace where
  attempts : Nat
  selections : List Address
  outcome : CmdOutcome
deriving DecidableEq

/-- Modelled from the spec: the Command Executor retry policy (section 4.4)
— attempt 0 runs against the server selected for it; exactly one retry is
performed, only when the operation is retryable and the first attempt failed
transiently, and the retry re-runs server selection from scratch for the
second attempt; otherwise the first outcome propagates immediately. -/
def execute (retryable : Bool) (selectAt : Nat → Address)
    (runAt : Nat → CmdOutcome) : ExecTrace :=
  if transient (runAt 0) && retryable then
    { attempts := 2, selections := [selectAt 0, selectAt 1],
      outcome := runAt 1 }
  else
    { attempts := 1, selections := [selectAt 0], outcome := runAt 0 }

/-- C9: the Command Executor retries at most once; a second attempt happens
exactly when the operation is retryable and the first attempt failed with a
transient network or not-primary / node-is-recovering error, and that retry
re-runs server selection from scratch; a well-formed server command error
(validation, write conflict) propagates immediately with no retry. -/
theorem executor_retry_policy (retryable : Bool) (selectAt : Nat → Address)
    (runAt : Nat → CmdOutcome) :
    (execute retryable selectAt runAt).attempts ≤ 2 ∧
    ((execute retryable selectAt runAt).attempts = 2 ↔
      retryable = true ∧ transient (runAt 0) = true) ∧
    (retryable = true → transient (runAt 0) = true →
      (execute retryable selectAt runAt).selections = [selectAt 0, selectAt 1] ∧
      (execute retryable selectAt runAt).outcome = runAt 1) ∧
    (∀ code, runAt 0 = .serverError code →
      (execute retryable selectAt runAt).attempts = 1 ∧
      (execute retryable selectAt runAt).outcome = .serverError code) := by
  cases hT : transient (runAt 0) <;> cases hB : retryable
  · have hE : execute false selectAt runAt =
        { attempts := 1, selections := [selectAt 0], outcome := runAt 0 } := by
      simp only [execute]
      rw [hT]
      simp
    refine ⟨by rw [hE]; simp, by rw [hE]; simp, ?_, ?_⟩
    · intro h _
      exact absurd h (by simp)
    · intro code hcode
      rw [hE]
      simp [hcode]
  · have hE : execute true selectAt runAt =
        { attempts := 1, selections := [selectAt 0], outcome := runAt 0 } := by
      simp only [execute]
      rw [hT]
      simp
    refine ⟨by rw [hE]; simp, by rw [hE]; simp [hT], ?_, ?_⟩
    · intro _ h
      exact absurd h (by simp)
    · intro code hcode
      rw [hE]
      simp [hcode]
  · have hE : execute false selectAt runAt =
        { attempts := 1, selections := [selectAt 0], outcome := runAt 0 } := by
      simp only [execute]
      rw [hT]
      simp
    refine ⟨by rw [hE]; simp, by rw [hE]; simp, ?_, ?_⟩
    · intro h _
      exact absurd h (by simp)
    · intro code hcode
      rw [hcode] at hT
      exact absurd hT (by simp [transient])
  · have hE : execute true selectAt runAt =
        { attempts := 2, selections := [selectAt 0, selectAt 1],
          outcome := runAt 1 } := by
      simp only [execute]
      rw [hT]
      simp
    refine ⟨by rw [hE], by rw [hE]; simp [hT], ?_, ?_⟩
    · intro _ _
      rw [hE]
      exact ⟨rfl, rfl⟩
    · intro code hcode
      rw [hcode] at hT
      exact absurd hT (by simp [transient])

theorem executor_retry_policy_witness :
    (execute true (fun k => k) fun k =>
      if k = 0 then CmdOutcome.netError else CmdOutcome.success 7).attempts ≤ 2 :=
  (executor_retry_policy true (fun k => k) fun k =>
    if k = 0 then CmdOutcome.netError else CmdOutcome.success 7).1

/-! ### Collection handle validity (test collection.cpp constructor and
assignment cases; spec section 1 binding layer) -/

/-- Modelled from the spec: the client-side state backing a usable
collection handle (the collection implementation is absent from the corpus;
its observable contract is fixed by the default-construction, copy
construction and copy assignment tests). -/
structure CollImpl where
  collName : Nat
deriving DecidableEq

/-- A collection handle either carries an implementation or is the invalid
default-constructed handle. -/
structure Collection where
  impl : Option CollImpl
deriving DecidableEq

inductive BindingError
  | logicError
deriving DecidableEq

/-- The default-constructed collection handle. -/
def Collection.defaultHandle : Collection := { impl := none }

def Collection.valid (c : Collection) : Bool := c.impl.isSome

/-- Copy construction copies the underlying implementation state. -/
def Collection.copyFrom (c : Collection) : Collection := { impl := c.impl }

/-- Copy assignment replaces the target's state with the source's. -/
def Collection.assign (dst src : Collection) : Collection := { impl := src.impl }

/-- Every operation goes through the validity gate: on an invalid handle it
raises logic_error instead of executing. -/
def Collection.runOp (c : Collection) (op : CollImpl → Nat) :
    Except BindingError Nat :=
  match c.impl with
  | none => .error .logicError
  | some i => .ok (op i)

def Collection.nameOp (c : Collection) : Except BindingError Nat :=
  c.runOp fun i => i.collName

/-- C10: a default-constructed collection handle is invalid; every operation
invoked on an invalid handle — name in particular — raises logic_error
rather than executing, and invalidity is preserved by copy construction and
copy assignment: copying an invalid collection always yields an invalid
collection. -/
theorem invalid_collection (c d : Collection) (hc : c.valid = false) :
    Collection.defaultHandle.valid = false ∧
    (∀ op, c.runOp op = .error .logicError) ∧
    c.nameOp = .error .logicError ∧
    (c.copyFrom).valid = false ∧
    (Collection.assign d c).valid = false := by
  have himpl : c.impl = none := by
    cases hop : c.impl with
    | none => rfl
    | some i =>
      rw [Collection.valid, hop] at hc
      simp at hc
  refine ⟨rfl, ?_, ?_, ?_, ?_⟩ <;>
    simp [Collection.runOp, Collection.nameOp, Collection.copyFrom,
      Collection.assign, Collection.valid, himpl]

theorem invalid_collection_witness :
    Collection.defaultHandle.valid = false ∧
    Collection.defaultHandle.nameOp = .error .logicError ∧
    (Collection.defaultHandle.copyFrom).valid = false :=
  have h := invalid_collection Collection.defaultHandle
    { impl := some { collName := 0 } } rfl
  ⟨h.1, h.2.2.1, h.2.2.2.1⟩
